import Mathlib

/-!
Verification of the combat resolution engine in combat.cpp: the area-of-effect
geometry subsystem (MatrixArea transforms, direction-dependent area lookup,
projection) and the damage/effect pipeline (caster-stat scaling, critical hits,
player protection rules, life/mana leech, the condition-only branch).

External collaborators of the engine (world state, the blocking/mitigation
routine combatBlockHit, the health/mana mutation routines, and the random
samplers normal_random/uniform_random, none of which are part of combat.cpp)
are modelled as explicit oracle inputs: each random roll becomes an input value
in the range 1..100, and each per-target block/apply step becomes an input
function.  The C++ double arithmetic value * (stat / 100.0) followed by
std::round is modelled exactly over integer fractions (roundFrac), i.e. with
exact rational arithmetic and rounding of halfway cases away from zero.
Machine integers (int32_t) are modelled as unbounded Int; the formulas under
verification are stated by the specification over mathematical integers.
-/

/-- Rounding of std::round applied to the exact fraction num / den (den > 0):
nearest integer, halfway cases rounded away from zero. -/
def roundFrac (num den : ℤ) : ℤ :=
  if 0 ≤ num then (2 * num + den) / (2 * den)
  else -((2 * (-num) + den) / (2 * den))

/-- C++ int32_t division by two (truncation toward zero), as in value /= 2. -/
def cppHalf (v : ℤ) : ℤ := Int.tdiv v 2

/-! ## MatrixArea (combat.h data model, transforms from combat.cpp 1321-1365)

A MatrixArea is a rows x cols boolean grid stored row major in a valarray,
with a designated center cell stored as the pair (x, y) = (column, row)
(setCenter(y, x) stores {x, y}).  The cell at (row, col) is arr[row*cols+col].
The transforms below translate the std::slice / std::gslice assignments of
flip, mirror, transpose and rotate90 literally; each slice identity used is
recorded in a comment at the definition. -/

structure MatrixArea where
  centerX : ℕ
  centerY : ℕ
  rows : ℕ
  cols : ℕ
  arr : List Bool
deriving DecidableEq

/-- Reading a cell: arr[row * cols + col] (false beyond the backing store). -/
def MatrixArea.cell (g : MatrixArea) (r c : ℕ) : Bool :=
  g.arr.getD (r * g.cols + c) false

/-- The ShapeGrid invariant of the data model: the backing array has exactly
rows x cols entries and the origin lies within the grid. -/
def MatrixArea.wf (g : MatrixArea) : Prop :=
  g.arr.length = g.rows * g.cols ∧ g.centerX < g.cols ∧ g.centerY < g.rows

instance (g : MatrixArea) : Decidable g.wf := by
  unfold MatrixArea.wf; infer_instance

/-- Row-major array of the given dimensions filled from a cell function. -/
def mkArr (rows cols : ℕ) (f : ℕ → ℕ → Bool) : List Bool :=
  List.ofFn (fun i : Fin (rows * cols) => f (i.1 / cols) (i.1 % cols))

/-- MatrixArea::flip.  Loop: newArr[slice(i*cols, cols, 1)] =
arr[slice((rows-i-1)*cols, cols, 1)] for i < rows, i.e. new row i is old row
rows-1-i.  Returned center is {cols - center.first - 1, center.second}. -/
def MatrixArea.flip (g : MatrixArea) : MatrixArea :=
  { centerX := g.cols - g.centerX - 1
    centerY := g.centerY
    rows := g.rows
    cols := g.cols
    arr := mkArr g.rows g.cols (fun r c => g.cell (g.rows - r - 1) c) }

/-- MatrixArea::mirror.  Loop: newArr[slice(i, cols, rows)] =
arr[slice(cols-i-1, cols, rows)] for i < cols: position i + k*rows (k < cols)
receives arr[(cols-i-1) + k*rows]; positions never written stay at the
default false of the freshly constructed valarray.  Decomposing a linear
index m as i = m % rows, k = m / rows, a position is written exactly when
both are below cols.  (For cols > rows the C++ loop indexes out of bounds,
which is undefined; all theorems about mirror below are restricted to
square grids, where the loop is exactly a column reversal.)  Returned center
is {center.first, rows - center.second - 1}. -/
def MatrixArea.mirror (g : MatrixArea) : MatrixArea :=
  { centerX := g.centerX
    centerY := g.rows - g.centerY - 1
    rows := g.rows
    cols := g.cols
    arr := List.ofFn (fun m : Fin (g.rows * g.cols) =>
      if m.1 % g.rows < g.cols ∧ m.1 / g.rows < g.cols then
        g.arr.getD ((g.cols - m.1 % g.rows - 1) + (m.1 / g.rows) * g.rows) false
      else false) }

/-- MatrixArea::transpose.  gslice(0, {cols, rows}, {1, cols}) enumerates,
for s0 < cols and s1 < rows (s1 fastest), the source index s0 + s1*cols; the
resulting sequence of length cols*rows is stored in a grid whose declared
dimensions stay (rows, cols) (the constructor is called with rows, cols
unswapped).  Element j of the new array (j = s0*rows + s1) is therefore
arr[j / rows + (j % rows) * cols].  Returned center swaps the components. -/
def MatrixArea.transpose (g : MatrixArea) : MatrixArea :=
  { centerX := g.centerY
    centerY := g.centerX
    rows := g.rows
    cols := g.cols
    arr := List.ofFn (fun j : Fin (g.cols * g.rows) =>
      g.arr.getD (j.1 / g.rows + (j.1 % g.rows) * g.cols) false) }

/-- MatrixArea::rotate90.  Loop: newArr[slice(i, cols, rows)] =
arr[slice((rows-i-1)*cols, cols, 1)] for i < rows, into a grid with swapped
dimensions (new rows = cols, new cols = rows): new cell (r, c) = old cell
(rows-1-c, r).  Returned center is {rows - center.second - 1, center.first}. -/
def MatrixArea.rotate90 (g : MatrixArea) : MatrixArea :=
  { centerX := g.rows - g.centerY - 1
    centerY := g.centerX
    rows := g.cols
    cols := g.rows
    arr := mkArr g.cols g.rows (fun r c => g.cell (g.rows - c - 1) r) }

/-- The default-constructed MatrixArea (the static empty fallback of
AreaCombat::getArea). -/
def MatrixArea.empty : MatrixArea :=
  { centerX := 0, centerY := 0, rows := 0, cols := 0, arr := [] }

/-! ## Direction selection and area lookup (combat.cpp 1367-1400) -/

/-- The compass directions, with toNat giving the numeric values of the
Direction enumeration of the repository (4 cardinal values 0-3, then the four
diagonals 4-7) used to index the areas vector. -/
inductive Direction
  | north
  | east
  | south
  | west
  | southwest
  | southeast
  | northwest
  | northeast
deriving DecidableEq

def Direction.toNat : Direction → ℕ
  | .north => 0
  | .east => 1
  | .south => 2
  | .west => 3
  | .southwest => 4
  | .southeast => 5
  | .northwest => 6
  | .northeast => 7

/-- World position (coordinates as unbounded integers; only offsets matter
to the embedded operations). -/
structure PositionM where
  x : ℤ
  y : ℤ
  z : ℤ
deriving DecidableEq

/-- Direction selection of AreaCombat::getArea from the offsets
dx = getOffsetX(targetPos, centerPos), dy = getOffsetY(targetPos, centerPos):
first the cardinal chain (west / east / north / south), then, if the extended
set exists, the four diagonal overrides for the sign combinations. -/
def areaCombatDir (hasExtArea : Bool) (dx dy : ℤ) : Direction :=
  let dir : Direction :=
    if dx < 0 then .west
    else if dx > 0 then .east
    else if dy < 0 then .north
    else .south
  if hasExtArea then
    if dx < 0 ∧ dy < 0 then .northwest
    else if dx > 0 ∧ dy < 0 then .northeast
    else if dx < 0 ∧ dy > 0 then .southwest
    else if dx > 0 ∧ dy > 0 then .southeast
    else dir
  else dir

/-- AreaCombat: the per-direction grids (indexed by Direction.toNat) and the
extended-area flag. -/
structure AreaCombat where
  areas : List MatrixArea
  hasExtArea : Bool

/-- AreaCombat::getArea: select the direction from the caster-to-target
offsets; if dir indexes past the configured vector, return the static
default-constructed empty MatrixArea (the source comments that this means
setupArea was forgotten), otherwise the configured grid. -/
def AreaCombat.getArea (ac : AreaCombat) (centerPos targetPos : PositionM) : MatrixArea :=
  let dx := targetPos.x - centerPos.x
  let dy := targetPos.y - centerPos.y
  let dir := areaCombatDir ac.hasExtArea dx dy
  if dir.toNat ≥ ac.areas.length then MatrixArea.empty
  else ac.areas.getD dir.toNat MatrixArea.empty

/-- The cell projection loop of getList (combat.cpp 53-78): scan the grid in
row-major order; every active cell (row, col) maps to the world position
(target.x - center.x + col, target.y - center.y + row, target.z) and is kept
when the sight predicate (isSightClear from the resolved caster-facing
reference point) accepts it.  Tile materialization is left to the world. -/
def projectedPositions (m : MatrixArea) (targetPos : PositionM)
    (sight : PositionM → Bool) : List PositionM :=
  (List.range m.rows).flatMap (fun row =>
    (List.range m.cols).filterMap (fun col =>
      if m.cell row col then
        let pos : PositionM :=
          ⟨targetPos.x - (m.centerX : ℤ) + (col : ℤ),
           targetPos.y - (m.centerY : ℤ) + (row : ℤ), targetPos.z⟩
        if sight pos then some pos else none
      else none))

/-! ## Damage pipeline data model (enums from the repository headers) -/

inductive CombatType
  | noneType
  | physical
  | energy
  | earth
  | fire
  | lifedrain
  | manadrain
  | healing
  | drown
  | ice
  | holy
  | death
  | arcane
  | water
deriving DecidableEq

inductive OriginType
  | originNone
  | condition
  | spell
  | melee
  | ranged
deriving DecidableEq

inductive SkullType
  | skullNone
  | yellow
  | green
  | white
  | red
  | black
  | orange
deriving DecidableEq

/-- CombatDamage: the transient per-resolution damage record.  blockType is
written by the external blocking routine; it is carried here because the
area loop reads the blockType of the outer, never-blocked damage object. -/
structure CombatDamage where
  primaryType : CombatType
  primaryValue : ℤ
  secondaryType : CombatType
  secondaryValue : ℤ
  critical : Bool
  leeched : Bool
  origin : OriginType
deriving DecidableEq

/-- The caster-player stat accessors the pipeline reads:
getCharacterStat(CHARSTAT_STRENGTH / CHARSTAT_INTELLIGENCE) and
getSpecialSkill for critical and leech chance/amount, plus the two
comparisons health < maxHealth and mana < maxMana that gate leech. -/
structure PlayerStats where
  strength : ℕ
  intelligence : ℕ
  critChance : ℕ
  critSkill : ℕ
  lifeLeechChance : ℕ
  lifeLeechSkill : ℕ
  manaLeechChance : ℕ
  manaLeechSkill : ℕ
  healthBelowMax : Bool
  manaBelowMax : Bool

/-- Caster context for one resolution: whether a caster creature exists,
whether it is a player (with its stats), and the sampled 1..100 rolls.
The samplers (normal_random for single-target critical and leech rolls,
uniform_random for the area critical roll) are not part of combat.cpp, so
each roll is an input here; modelled from the spec: a roll is an arbitrary
value in the range 1..100. -/
structure CasterCtx where
  hasCaster : Bool
  player : Option PlayerStats
  critRoll : ℕ
  lifeRoll : ℕ
  manaRoll : ℕ

/-- The caster-stat scaling blocks (combat.cpp 845-872 with denom = 100 and
1026-1051 with denom = 230): a physical component scales by strength, any
other component by intelligence, as
value += round(value * (stat / denom)) whenever the stat is nonzero. -/
def scaleValue (ps : PlayerStats) (ty : CombatType) (v : ℤ) (denom : ℤ) : ℤ :=
  if ty = CombatType.physical then
    if ps.strength ≠ 0 then v + roundFrac (v * (ps.strength : ℤ)) denom else v
  else
    if ps.intelligence ≠ 0 then v + roundFrac (v * (ps.intelligence : ℤ)) denom else v

/-- The calcLeechValue lambda of Combat::doAreaCombat (combat.cpp 1120-1125):
base = maxDamageFound * (skillPercent / 100);
extras = base * (extraPercentForOthers / 100) * extrasCount with
extrasCount = totalTargets - 1 when totalTargets > 1 else 0;
result = round(base + extras).  Computed here over the common denominator
10000: base + extras = maxDamageFound * skillPercent * (100 + extra * count)
/ 10000 exactly. -/
def calcLeechValue (maxDamageFound : ℤ) (totalTargets : ℕ)
    (skillPercent : ℕ) (extraPercentForOthers : ℕ) : ℤ :=
  let extrasCount : ℕ := if 1 < totalTargets then totalTargets - 1 else 0
  roundFrac (maxDamageFound * (skillPercent : ℤ) * 100 +
    maxDamageFound * (skillPercent : ℤ) * (extraPercentForOthers : ℤ) * (extrasCount : ℤ))
    10000

/-! ## Single-target pipeline: Combat::doTargetCombat (combat.cpp 836-957) -/

/-- Result of g_game.combatBlockHit for one call: a true return vetoes the
hit, otherwise the (possibly mitigated) damage values continue. -/
inductive BlockResult
  | vetoed
  | passed (p s : ℤ)

/-- The per-target oracle inputs of doTargetCombat: the target classification
read by the pipeline and the two external world-mutation routines. change
returns the success flag of combatChangeHealth / combatChangeMana together
with the final damage values it leaves in the record (it receives the damage
by reference). -/
structure SingleTarget where
  isPlayer : Bool
  skullBlack : Bool
  isCaster : Bool
  block : ℤ → ℤ → BlockResult
  change : ℤ → ℤ → Bool × ℤ × ℤ

/-- Observable outcome of one doTargetCombat run: the damage handed to
combatBlockHit (none on the manadrain path, which never blocks), the veto
flag, the damage after the critical step (what combatChangeHealth receives),
the final critical flag, the success flag, and the leech heals applied to
the caster as (isLife, amount) pairs. -/
structure SingleResult where
  blockInput : Option (ℤ × ℤ)
  vetoed : Bool
  postCritP : ℤ
  postCritS : ℤ
  critical : Bool
  success : Bool
  leechEvents : List (Bool × ℤ)

/-- The single-target leech block (combat.cpp 919-945): gated on the damage
not being itself leech, not healing, a player caster, target distinct from
caster, and origin not condition; each of life and mana independently needs
the below-max comparison, positive chance and skill stats, and its 1..100
roll at most the chance stat; the healed amount is
round(totalDamage * (skill / 100)) with totalDamage = abs(primary+secondary)
of the final damage record, applied without a positivity check. -/
def singleLeechEvents (ctx : CasterCtx) (t : SingleTarget) (damage : CombatDamage)
    (fp fs : ℤ) : List (Bool × ℤ) :=
  match ctx.player with
  | none => []
  | some ps =>
    if ¬damage.leeched ∧ damage.primaryType ≠ CombatType.healing ∧ ¬t.isCaster
        ∧ damage.origin ≠ OriginType.condition then
      let totalDamage : ℤ := ((fp + fs).natAbs : ℤ)
      let lifeEv :=
        if ps.healthBelowMax ∧ 0 < ps.lifeLeechChance ∧ 0 < ps.lifeLeechSkill
            ∧ ctx.lifeRoll ≤ ps.lifeLeechChance then
          [(true, roundFrac (totalDamage * (ps.lifeLeechSkill : ℤ)) 100)]
        else []
      let manaEv :=
        if ps.manaBelowMax ∧ 0 < ps.manaLeechChance ∧ 0 < ps.manaLeechSkill
            ∧ ctx.manaRoll ≤ ps.manaLeechChance then
          [(false, roundFrac (totalDamage * (ps.manaLeechSkill : ℤ)) 100)]
        else []
      lifeEv ++ manaEv
    else []

/-- Combat::doTargetCombat.  Non-manadrain path: caster-player stat scaling
(denominator 100), combatBlockHit (early return on veto), the player-vs-player
halving (target player distinct from the caster player, target skull not
black, type not healing; both components truncated toward zero), the critical
step (no prior critical, not healing, origin not condition, positive chance
and skill stats, roll at most chance: both components gain
round(value * (critSkill / 100)) and the record is marked critical), then
combatChangeHealth.  Manadrain path: combatChangeMana on the raw values.
On success the leech block runs; condition attachment, dispel and callbacks
mutate only external state and are not recorded here. -/
def doTargetCombat (ctx : CasterCtx) (t : SingleTarget) (damage : CombatDamage) :
    SingleResult :=
  if damage.primaryType = CombatType.manadrain then
    let r := t.change damage.primaryValue damage.secondaryValue
    { blockInput := none, vetoed := false
      postCritP := damage.primaryValue, postCritS := damage.secondaryValue
      critical := damage.critical, success := r.1
      leechEvents := if r.1 then singleLeechEvents ctx t damage r.2.1 r.2.2 else [] }
  else
    match ctx.player with
    | none =>
      match t.block damage.primaryValue damage.secondaryValue with
      | .vetoed =>
        { blockInput := some (damage.primaryValue, damage.secondaryValue)
          vetoed := true, postCritP := damage.primaryValue
          postCritS := damage.secondaryValue, critical := damage.critical
          success := false, leechEvents := [] }
      | .passed p1 s1 =>
        let r := t.change p1 s1
        { blockInput := some (damage.primaryValue, damage.secondaryValue)
          vetoed := false, postCritP := p1, postCritS := s1
          critical := damage.critical, success := r.1
          leechEvents := if r.1 then singleLeechEvents ctx t damage r.2.1 r.2.2 else [] }
    | some ps =>
      let p0 := scaleValue ps damage.primaryType damage.primaryValue 100
      let s0 := scaleValue ps damage.secondaryType damage.secondaryValue 100
      match t.block p0 s0 with
      | .vetoed =>
        { blockInput := some (p0, s0), vetoed := true
          postCritP := p0, postCritS := s0, critical := damage.critical
          success := false, leechEvents := [] }
      | .passed p1 s1 =>
        let halve := t.isPlayer ∧ ¬t.isCaster ∧ ¬t.skullBlack
            ∧ damage.primaryType ≠ CombatType.healing
        let p2 := if halve then cppHalf p1 else p1
        let s2 := if halve then cppHalf s1 else s1
        let critNow := ¬damage.critical ∧ damage.primaryType ≠ CombatType.healing
            ∧ damage.origin ≠ OriginType.condition
            ∧ 0 < ps.critChance ∧ 0 < ps.critSkill ∧ ctx.critRoll ≤ ps.critChance
        let p3 := if critNow then p2 + roundFrac (p2 * (ps.critSkill : ℤ)) 100 else p2
        let s3 := if critNow then s2 + roundFrac (s2 * (ps.critSkill : ℤ)) 100 else s2
        let r := t.change p3 s3
        { blockInput := some (p0, s0), vetoed := false
          postCritP := p3, postCritS := s3
          critical := if critNow then true else damage.critical
          success := r.1
          leechEvents := if r.1 then singleLeechEvents ctx t damage r.2.1 r.2.2 else [] }

/-! ## Area pipeline: Combat::doAreaCombat (combat.cpp 959-1155) -/

/-- Outcome of processing one area target through combatBlockHit then
combatChangeHealth: blocked models a true return of combatBlockHit (the
loop continues to the next target); landed carries the success flag of
combatChangeHealth and the final values left in the damage record. -/
inductive HitResult
  | blocked
  | landed (success : Bool) (fp fs : ℤ)

/-- One creature collected into toDamageCreatures, with its oracle for the
external block/apply routines (manaHit is combatChangeMana, used by the
manadrain branch, which never blocks). -/
structure AreaTarget where
  isPlayer : Bool
  skullBlack : Bool
  isCaster : Bool
  hit : ℤ → ℤ → HitResult
  manaHit : ℤ → ℤ → Bool × ℤ × ℤ

/-- Ghost trace of the per-target damage computation: the values after the
stat-scaling step, whether the player-vs-player reduction applied, and the
values handed to the external block/apply routines. -/
structure AreaTrace where
  scaledP : ℤ
  scaledS : ℤ
  reduced : Bool
  preBlockP : ℤ
  preBlockS : ℤ
deriving DecidableEq

/-- Loop state of the area damage loop: the running maximum absolute damage,
the running count of successful hits, the leeched flag of the shared damage
record, the applied leech heals, and the ghost traces. -/
structure AreaState where
  maxDamageFound : ℤ
  totalTargets : ℕ
  leeched : Bool
  leechEvents : List (Bool × ℤ)
  traces : List AreaTrace

/-- The pre-loop critical roll of doAreaCombat (combat.cpp 964-974): with a
player caster, no prior critical, type not healing and origin not condition,
positive chance and skill stats and the 1..100 roll at most the chance stat,
the bonuses round(primary * (critSkill / 100)) and
round(secondary * (critSkill / 100)) are computed once from the unscaled
base damage and the shared record is marked critical.  Returns
(criticalPrimary, criticalSecondary, critical flag after the step). -/
def areaCriticalRoll (ctx : CasterCtx) (damage : CombatDamage) : ℤ × ℤ × Bool :=
  match ctx.player with
  | some ps =>
    if ¬damage.critical ∧ damage.primaryType ≠ CombatType.healing
        ∧ damage.origin ≠ OriginType.condition
        ∧ 0 < ps.critChance ∧ 0 < ps.critSkill ∧ ctx.critRoll ≤ ps.critChance then
      (roundFrac (damage.primaryValue * (ps.critSkill : ℤ)) 100,
       roundFrac (damage.secondaryValue * (ps.critSkill : ℤ)) 100, true)
    else (0, 0, damage.critical)
  | none => (0, 0, damage.critical)

/-- The per-target damage preparation of the area loop (combat.cpp
1025-1065): copy the base damage, caster-player stat scaling with
denominator 230, the player-vs-player reduction (some component negative,
a caster present, caster player distinct from the target player, target
skull not black: both components truncated toward zero), then, if the record
is critical, add criticalPrimary / criticalSecondary (halved when the
reduction applied). -/
def areaPreBlock (ctx : CasterCtx) (damage : CombatDamage)
    (critP critS : ℤ) (critical : Bool) (t : AreaTarget) : AreaTrace :=
  let p0 := match ctx.player with
    | some ps => scaleValue ps damage.primaryType damage.primaryValue 230
    | none => damage.primaryValue
  let s0 := match ctx.player with
    | some ps => scaleValue ps damage.secondaryType damage.secondaryValue 230
    | none => damage.secondaryValue
  let reduced := (p0 < 0 ∨ s0 < 0) ∧ ctx.hasCaster ∧ ctx.player.isSome
      ∧ t.isPlayer ∧ ¬t.isCaster ∧ ¬t.skullBlack
  let p1 := if reduced then cppHalf p0 else p0
  let s1 := if reduced then cppHalf s0 else s0
  let p2 := if critical then p1 + (if reduced then cppHalf critP else critP) else p1
  let s2 := if critical then s1 + (if reduced then cppHalf critS else critS) else s1
  { scaledP := p0, scaledS := s0, reduced := decide reduced
    preBlockP := p2, preBlockS := s2 }

/-- The leech block as placed in the source (combat.cpp 1114-1153), INSIDE
the per-creature loop: with a player caster, the shared damage record not yet
leeched, type not healing, origin not condition, and the running counters
positive, the record is marked leeched and, for life and mana independently
(below-max comparison, positive chance and skill stats, roll at most chance),
finalLeech = calcLeechValue(skill, extra) from the RUNNING maxDamageFound and
totalTargets is applied to the caster when positive (extra percent 10 for
life, 5 for mana). -/
def areaLeech (ctx : CasterCtx) (damage : CombatDamage) (st : AreaState) : AreaState :=
  match ctx.player with
  | none => st
  | some ps =>
    if ¬st.leeched ∧ damage.primaryType ≠ CombatType.healing
        ∧ damage.origin ≠ OriginType.condition
        ∧ 0 < st.totalTargets ∧ 0 < st.maxDamageFound then
      let lifeEv :=
        if ps.healthBelowMax ∧ 0 < ps.lifeLeechChance ∧ 0 < ps.lifeLeechSkill
            ∧ ctx.lifeRoll ≤ ps.lifeLeechChance then
          let fl := calcLeechValue st.maxDamageFound st.totalTargets ps.lifeLeechSkill 10
          if 0 < fl then [(true, fl)] else []
        else []
      let manaEv :=
        if ps.manaBelowMax ∧ 0 < ps.manaLeechChance ∧ 0 < ps.manaLeechSkill
            ∧ ctx.manaRoll ≤ ps.manaLeechChance then
          let fl := calcLeechValue st.maxDamageFound st.totalTargets ps.manaLeechSkill 5
          if 0 < fl then [(false, fl)] else []
        else []
      { st with leeched := true, leechEvents := st.leechEvents ++ lifeEv ++ manaEv }
    else st

/-- One iteration of the area damage loop: prepare the per-target damage,
run block/apply, update maxDamageFound and totalTargets on success
(dmgDealt = abs(primary + secondary) of the final record), then the in-loop
leech block.  A combatBlockHit veto continues to the next creature and skips
the leech block for this iteration. -/
def areaTargetStep (ctx : CasterCtx) (damage : CombatDamage)
    (critP critS : ℤ) (critical : Bool) (st : AreaState) (t : AreaTarget) : AreaState :=
  let tr := areaPreBlock ctx damage critP critS critical t
  let st0 := { st with traces := st.traces ++ [tr] }
  if damage.primaryType = CombatType.manadrain then
    let r := t.manaHit tr.preBlockP tr.preBlockS
    let st1 := if r.1 then
        { st0 with
          maxDamageFound := max st0.maxDamageFound (((r.2.1 + r.2.2).natAbs : ℤ))
          totalTargets := st0.totalTargets + 1 }
      else st0
    areaLeech ctx damage st1
  else
    match t.hit tr.preBlockP tr.preBlockS with
    | .blocked => st0
    | .landed succ fp fs =>
      let st1 := if succ then
          { st0 with
            maxDamageFound := max st0.maxDamageFound (((fp + fs).natAbs : ℤ))
            totalTargets := st0.totalTargets + 1 }
        else st0
      areaLeech ctx damage st1

/-- Observable outcome of one doAreaCombat run over the collected creatures. -/
structure AreaResult where
  maxDamageFound : ℤ
  totalTargets : ℕ
  leechEvents : List (Bool × ℤ)
  traces : List AreaTrace
  critical : Bool

/-- Combat::doAreaCombat, damage-application part: the critical roll happens
once before the loop, then every collected creature is processed in order. -/
def doAreaCombat (ctx : CasterCtx) (damage : CombatDamage)
    (targets : List AreaTarget) : AreaResult :=
  let c := areaCriticalRoll ctx damage
  let fin := targets.foldl (areaTargetStep ctx damage c.1 c.2.1 c.2.2)
    { maxDamageFound := 0, totalTargets := 0, leeched := damage.leeched
      leechEvents := [], traces := [] }
  { maxDamageFound := fin.maxDamageFound, totalTargets := fin.totalTargets
    leechEvents := fin.leechEvents, traces := fin.traces, critical := c.2.2 }

/-! ## Combat::isProtected (combat.cpp 319-335) -/

/-- The player attributes isProtected reads. -/
structure ProtPlayer where
  level : ℕ
  vocAllowsPvp : Bool
  skull : SkullType

/-- Combat::isProtected.  The protection level comes from the configuration;
clientSkull is attacker->getSkullClient(target), the reputation marker of the
attacker toward this target. -/
def isProtected (protectionLevel : ℕ) (attacker target : ProtPlayer)
    (clientSkull : SkullType) : Bool :=
  if target.level < protectionLevel ∨ attacker.level < protectionLevel then true
  else if attacker.vocAllowsPvp = false ∨ target.vocAllowsPvp = false then true
  else if attacker.skull = SkullType.black ∧ clientSkull = SkullType.skullNone then true
  else false

/-! ## Combat::doCombat, no-combat-type branch (combat.cpp 709-746) -/

/-- The combat-definition parameters read by the condition-only branch. -/
structure NoTypeParams where
  aggressive : Bool
  origin : OriginType
  conditionTypes : List ℕ
  hasTargetCallback : Bool
  distanceEffectSet : Bool

/-- Target attributes read by the condition-only branch. -/
structure NoTypeTarget where
  isCaster : Bool
  immuneTo : ℕ → Bool

/-- What the condition-only branch did: whether it acted at all (the
eligibility test at the head of the branch), which condition types were
attached to the target, and whether the dispel step, combatTileEffects, the
target callback and the caster-to-target distance visual ran. -/
structure NoTypeResult where
  acted : Bool
  conditionsApplied : List ℕ
  dispelRan : Bool
  tileEffectsRan : Bool
  targetCallbackRan : Bool
  distanceEffectRan : Bool
deriving DecidableEq

/-- The params.combatType == COMBAT_NONE branch of
Combat::doCombat(Creature*, Creature*): if not aggressive, or the target is
not the caster and canDoCombat approves (canCombat is that external verdict),
then: the condition list is attached only when params.origin is not melee
(self-infliction bypasses immunity), the dispel step always runs,
combatTileEffects always runs, the target callback runs when configured, and
the distance visual runs when a caster exists and a distance effect is set. -/
def doCombatNoDamage (p : NoTypeParams) (hasCaster : Bool) (t : NoTypeTarget)
    (canCombat : Bool) : NoTypeResult :=
  if p.aggressive = false ∨ (¬t.isCaster ∧ canCombat) then
    { acted := true
      conditionsApplied :=
        if p.origin ≠ OriginType.melee then
          p.conditionTypes.filter (fun c => t.isCaster || !t.immuneTo c)
        else []
      dispelRan := true
      tileEffectsRan := true
      targetCallbackRan := p.hasTargetCallback
      distanceEffectRan := hasCaster && p.distanceEffectSet }
  else
    { acted := false, conditionsApplied := [], dispelRan := false
      tileEffectsRan := false, targetCallbackRan := false, distanceEffectRan := false }

/-! ## Concrete inputs used by witnesses and counterexamples -/

/-- A well-formed 1 x 2 grid exercising the dimension swap of rotate90. -/
def gRotEx : MatrixArea :=
  { centerX := 0, centerY := 0, rows := 1, cols := 2, arr := [true, false] }

/-- A well-formed non-square (2 x 3) grid on which transpose fails to be an
involution: the source transpose keeps the declared dimensions while
transposing the underlying sequence. -/
def gNonSquare : MatrixArea :=
  { centerX := 0, centerY := 0, rows := 2, cols := 3
    arr := [false, true, false, false, false, false] }

/-- A well-formed square grid for the involution witnesses. -/
def gSquareEx : MatrixArea :=
  { centerX := 1, centerY := 0, rows := 2, cols := 2
    arr := [true, false, false, true] }

/-- An AreaCombat on which setupArea was never called: no direction is built. -/
def acUnconfigured : AreaCombat := { areas := [], hasExtArea := false }

/-- Stats of a caster player with a guaranteed critical roll (chance 100,
amount 50) and no leech skills. -/
def psCrit : PlayerStats :=
  { strength := 0, intelligence := 0, critChance := 100, critSkill := 50
    lifeLeechChance := 0, lifeLeechSkill := 0, manaLeechChance := 0
    manaLeechSkill := 0, healthBelowMax := false, manaBelowMax := false }

/-- Caster context for the critical-hit witnesses: rolls of 1. -/
def ctxCrit : CasterCtx :=
  { hasCaster := true, player := some psCrit, critRoll := 1, lifeRoll := 1, manaRoll := 1 }

/-- A monster target whose block and apply oracles pass values through. -/
def tgtCrit : SingleTarget :=
  { isPlayer := false, skullBlack := false, isCaster := false
    block := fun p s => BlockResult.passed p s
    change := fun p s => (true, p, s) }

/-- Fire damage of magnitude 100 from a spell. -/
def dmgCrit : CombatDamage :=
  { primaryType := CombatType.fire, primaryValue := 100
    secondaryType := CombatType.noneType, secondaryValue := 0
    critical := false, leeched := false, origin := OriginType.spell }

/-- Stats of a caster player with strength 30 and no critical or leech. -/
def psScale : PlayerStats :=
  { strength := 30, intelligence := 0, critChance := 0, critSkill := 0
    lifeLeechChance := 0, lifeLeechSkill := 0, manaLeechChance := 0
    manaLeechSkill := 0, healthBelowMax := false, manaBelowMax := false }

/-- Caster context for the scaling witness. -/
def ctxScale : CasterCtx :=
  { hasCaster := true, player := some psScale, critRoll := 100, lifeRoll := 100
    manaRoll := 100 }

/-- Physical damage of magnitude 100 from a spell. -/
def dmgScale : CombatDamage :=
  { primaryType := CombatType.physical, primaryValue := 100
    secondaryType := CombatType.noneType, secondaryValue := 0
    critical := false, leeched := false, origin := OriginType.spell }

/-- A monster target for the scaling witness (the hit does not succeed, so
no later pipeline stages fire). -/
def tgtScale : SingleTarget :=
  { isPlayer := false, skullBlack := false, isCaster := false
    block := fun p s => BlockResult.passed p s
    change := fun p s => (false, p, s) }

/-- An area target for the scaling witness. -/
def atScale : AreaTarget :=
  { isPlayer := false, skullBlack := false, isCaster := false
    hit := fun p s => HitResult.landed false p s
    manaHit := fun p s => (false, p, s) }

/-- Caster context for the area critical witness. -/
def ctxAreaCrit : CasterCtx :=
  { hasCaster := true, player := some psCrit, critRoll := 1, lifeRoll := 1, manaRoll := 1 }

/-- Harmful fire damage (negative magnitude) for the area critical witness. -/
def dmgAreaCrit : CombatDamage :=
  { primaryType := CombatType.fire, primaryValue := -100
    secondaryType := CombatType.noneType, secondaryValue := 0
    critical := false, leeched := false, origin := OriginType.spell }

/-- A monster area target whose hit succeeds with the incoming values. -/
def tgtAreaCrit : AreaTarget :=
  { isPlayer := false, skullBlack := false, isCaster := false
    hit := fun p s => HitResult.landed true p s
    manaHit := fun p s => (false, p, s) }

/-- Stats of a caster player with life leech chance 100 and skill 10. -/
def psLeech : PlayerStats :=
  { strength := 0, intelligence := 0, critChance := 0, critSkill := 0
    lifeLeechChance := 100, lifeLeechSkill := 10, manaLeechChance := 0
    manaLeechSkill := 0, healthBelowMax := true, manaBelowMax := false }

/-- Caster context for the leech evaluation. -/
def ctxLeech : CasterCtx :=
  { hasCaster := true, player := some psLeech, critRoll := 100, lifeRoll := 1
    manaRoll := 1 }

/-- Harmful fire damage for the leech evaluation. -/
def dmgLeech : CombatDamage :=
  { primaryType := CombatType.fire, primaryValue := -50
    secondaryType := CombatType.noneType, secondaryValue := 0
    critical := false, leeched := false, origin := OriginType.spell }

/-- First area target of the leech evaluation: the hit lands for 100. -/
def tgtLeechSmall : AreaTarget :=
  { isPlayer := false, skullBlack := false, isCaster := false
    hit := fun _ _ => HitResult.landed true (-100) 0
    manaHit := fun p s => (false, p, s) }

/-- Second area target of the leech evaluation: the hit lands for 2000. -/
def tgtLeechBig : AreaTarget :=
  { isPlayer := false, skullBlack := false, isCaster := false
    hit := fun _ _ => HitResult.landed true (-2000) 0
    manaHit := fun p s => (false, p, s) }

/-! ## Helper lemmas for the grid transforms -/

theorem length_mkArr (R C : ℕ) (f : ℕ → ℕ → Bool) : (mkArr R C f).length = R * C := by
  simp [mkArr]

theorem getD_in_range (l : List Bool) (i : ℕ) (h : i < l.length) :
    l.getD i false = l[i] := by
  rw [List.getD_eq_getElem?_getD, List.getElem?_eq_getElem h, Option.getD_some]

theorem getD_mkArr (R C : ℕ) (f : ℕ → ℕ → Bool) (r c : ℕ) (hr : r < R) (hc : c < C) :
    (mkArr R C f).getD (r * C + c) false = f r c := by
  have hidx : r * C + c < R * C := by
    calc r * C + c < r * C + C := by omega
    _ = (r + 1) * C := by ring
    _ ≤ R * C := Nat.mul_le_mul_right _ (by omega)
  have hlen : r * C + c < (mkArr R C f).length := by rwa [length_mkArr]
  rw [getD_in_range _ _ hlen]
  unfold mkArr
  rw [List.getElem_ofFn]
  have h1 : (r * C + c) / C = r := by
    rw [Nat.add_comm, Nat.add_mul_div_right _ _ (by omega : 0 < C),
      Nat.div_eq_of_lt hc]
    omega
  have h2 : (r * C + c) % C = c := by
    rw [Nat.add_comm, Nat.add_mul_mod_self_right, Nat.mod_eq_of_lt hc]
  rw [h1, h2]

theorem arr_eq_mkArr_cell (g : MatrixArea) (h : g.arr.length = g.rows * g.cols) :
    mkArr g.rows g.cols g.cell = g.arr := by
  apply List.ext_getElem
  · rw [length_mkArr, h]
  · intro i h1 h2
    have h1n : i < g.rows * g.cols := by rwa [length_mkArr] at h1
    have hC : 0 < g.cols := by
      rcases Nat.eq_zero_or_pos g.cols with h0 | h0
      · rw [h0, Nat.mul_zero] at h1n
        omega
      · exact h0
    have hdm : i / g.cols * g.cols + i % g.cols = i := by
      rw [Nat.add_comm, Nat.mul_comm, Nat.mod_add_div]
    have hr : i / g.cols < g.rows := by
      rw [Nat.div_lt_iff_lt_mul hC]
      omega
    have key := getD_mkArr g.rows g.cols g.cell (i / g.cols) (i % g.cols) hr
      (Nat.mod_lt _ hC)
    have hcell : g.cell (i / g.cols) (i % g.cols) = g.arr[i] := by
      unfold MatrixArea.cell
      rw [hdm, getD_in_range _ _ h2]
    rw [hdm] at key
    rw [getD_in_range _ _ h1] at key
    exact key.trans hcell

theorem mkArr_congr (R C : ℕ) (f h : ℕ → ℕ → Bool)
    (H : ∀ r < R, ∀ c < C, f r c = h r c) : mkArr R C f = mkArr R C h := by
  unfold mkArr
  congr 1
  funext i
  rcases Nat.eq_zero_or_pos C with h0 | hC
  · subst h0
    exact absurd i.2 (by simp)
  · exact H _ (by rw [Nat.div_lt_iff_lt_mul hC]; exact i.2) _ (Nat.mod_lt _ hC)

theorem rotate90_cell (g : MatrixArea) (r c : ℕ) (hr : r < g.cols) (hc : c < g.rows) :
    (g.rotate90).cell r c = g.cell (g.rows - c - 1) r := by
  unfold MatrixArea.cell
  exact getD_mkArr g.cols g.rows (fun a b => g.cell (g.rows - b - 1) a) r c hr hc

theorem flip_cell (g : MatrixArea) (r c : ℕ) (hr : r < g.rows) (hc : c < g.cols) :
    (g.flip).cell r c = g.cell (g.rows - r - 1) c := by
  unfold MatrixArea.cell
  exact getD_mkArr g.rows g.cols (fun a b => g.cell (g.rows - a - 1) b) r c hr hc

theorem MatrixArea.extEq (a b : MatrixArea) (h1 : a.centerX = b.centerX)
    (h2 : a.centerY = b.centerY) (h3 : a.rows = b.rows) (h4 : a.cols = b.cols)
    (h5 : a.arr = b.arr) : a = b := by
  cases a; cases b; simp_all

theorem getD_ofFn {n : ℕ} (f : Fin n → Bool) (i : ℕ) (hi : i < n) :
    (List.ofFn f).getD i false = f ⟨i, hi⟩ := by
  have h : i < (List.ofFn f).length := by simpa using hi
  rw [getD_in_range _ _ h, List.getElem_ofFn]

theorem mirror_entry (g : MatrixArea) (m : ℕ) (hm : m < g.rows * g.cols)
    (h1 : m % g.rows < g.cols) (h2 : m / g.rows < g.cols) :
    (g.mirror).arr.getD m false =
      g.arr.getD ((g.cols - m % g.rows - 1) + (m / g.rows) * g.rows) false := by
  have e : (g.mirror).arr.getD m false =
      if m % g.rows < g.cols ∧ m / g.rows < g.cols then
        g.arr.getD ((g.cols - m % g.rows - 1) + (m / g.rows) * g.rows) false
      else false :=
    getD_ofFn (fun m2 : Fin (g.rows * g.cols) =>
      if m2.1 % g.rows < g.cols ∧ m2.1 / g.rows < g.cols then
        g.arr.getD ((g.cols - m2.1 % g.rows - 1) + (m2.1 / g.rows) * g.rows) false
      else false) m hm
  rw [e, if_pos ⟨h1, h2⟩]

theorem transpose_entry (g : MatrixArea) (j : ℕ) (hj : j < g.cols * g.rows) :
    (g.transpose).arr.getD j false =
      g.arr.getD (j / g.rows + (j % g.rows) * g.cols) false :=
  getD_ofFn (fun j2 : Fin (g.cols * g.rows) =>
    g.arr.getD (j2.1 / g.rows + (j2.1 % g.rows) * g.cols) false) j hj

theorem flip_flip (g : MatrixArea) (h : g.wf) : g.flip.flip = g := by
  obtain ⟨hlen, hx, hy⟩ := h
  apply MatrixArea.extEq
  · show g.cols - (g.cols - g.centerX - 1) - 1 = g.centerX
    omega
  · rfl
  · rfl
  · rfl
  · have hstep : g.flip.flip.arr
        = mkArr g.rows g.cols (fun r c => g.flip.cell (g.rows - r - 1) c) := rfl
    rw [hstep, ← arr_eq_mkArr_cell g hlen]
    apply mkArr_congr
    intro r hr c hc
    rw [flip_cell g (g.rows - r - 1) c (by omega) (show c < g.cols from hc)]
    show g.cell (g.rows - (g.rows - r - 1) - 1) c = g.cell r c
    have e : g.rows - (g.rows - r - 1) - 1 = r := by omega
    rw [e]

theorem mirror_mirror_square (g : MatrixArea) (h : g.wf) (hsq : g.rows = g.cols) :
    g.mirror.mirror = g := by
  obtain ⟨hlen, hx, hy⟩ := h
  have hn : 0 < g.rows := by omega
  apply MatrixArea.extEq
  · rfl
  · show g.rows - (g.rows - g.centerY - 1) - 1 = g.centerY
    omega
  · rfl
  · rfl
  · apply List.ext_getElem
    · simp [MatrixArea.mirror, hlen]
    · intro i h1 h2
      have hiN : i < g.rows * g.cols := by
        have hL : (g.mirror.mirror).arr.length = g.rows * g.cols := by
          simp [MatrixArea.mirror]
        omega
      have hg1 : i % g.rows < g.cols := by
        have := Nat.mod_lt i hn
        omega
      have hg2 : i / g.rows < g.cols := by
        rw [Nat.div_lt_iff_lt_mul hn]
        calc i < g.rows * g.cols := hiN
        _ = g.cols * g.rows := Nat.mul_comm _ _
      rw [← getD_in_range _ _ h1]
      have em : (g.mirror.mirror).arr.getD i false =
          (g.mirror).arr.getD ((g.mirror).cols - i % (g.mirror).rows - 1
            + (i / (g.mirror).rows) * (g.mirror).rows) false :=
        mirror_entry g.mirror i hiN hg1 hg2
      rw [em]
      show (g.mirror).arr.getD
        (g.cols - i % g.rows - 1 + (i / g.rows) * g.rows) false = g.arr[i]
      have hkN : g.cols - i % g.rows - 1 + (i / g.rows) * g.rows < g.rows * g.cols := by
        have h3 : g.cols - i % g.rows - 1 < g.rows := by omega
        calc g.cols - i % g.rows - 1 + (i / g.rows) * g.rows
            < g.rows + (i / g.rows) * g.rows := by omega
        _ = (i / g.rows + 1) * g.rows := by ring
        _ ≤ g.cols * g.rows := Nat.mul_le_mul_right _ (by omega)
        _ = g.rows * g.cols := Nat.mul_comm _ _
      have hk1 : (g.cols - i % g.rows - 1 + (i / g.rows) * g.rows) % g.rows < g.cols := by
        rw [Nat.add_mul_mod_self_right]
        have : (g.cols - i % g.rows - 1) % g.rows < g.rows := Nat.mod_lt _ hn
        omega
      have hk2 : (g.cols - i % g.rows - 1 + (i / g.rows) * g.rows) / g.rows < g.cols := by
        rw [Nat.add_mul_div_right _ _ hn,
          Nat.div_eq_of_lt (show g.cols - i % g.rows - 1 < g.rows by omega)]
        omega
      rw [mirror_entry g (g.cols - i % g.rows - 1 + (i / g.rows) * g.rows) hkN hk1 hk2]
      have e1 : (g.cols - i % g.rows - 1 + (i / g.rows) * g.rows) % g.rows
          = g.cols - i % g.rows - 1 := by
        rw [Nat.add_mul_mod_self_right,
          Nat.mod_eq_of_lt (show g.cols - i % g.rows - 1 < g.rows by omega)]
      have e2 : (g.cols - i % g.rows - 1 + (i / g.rows) * g.rows) / g.rows = i / g.rows := by
        rw [Nat.add_mul_div_right _ _ hn,
          Nat.div_eq_of_lt (show g.cols - i % g.rows - 1 < g.rows by omega)]
        omega
      rw [e1, e2]
      have e3 : g.cols - (g.cols - i % g.rows - 1) - 1 + (i / g.rows) * g.rows = i := by
        have h4 : g.cols - (g.cols - i % g.rows - 1) - 1 = i % g.rows := by omega
        rw [h4, Nat.mul_comm (i / g.rows) g.rows]
        exact Nat.mod_add_div i g.rows
      rw [e3, getD_in_range _ _ h2]

theorem transpose_transpose_square (g : MatrixArea) (h : g.wf) (hsq : g.rows = g.cols) :
    g.transpose.transpose = g := by
  obtain ⟨hlen, hx, hy⟩ := h
  have hn : 0 < g.rows := by omega
  apply MatrixArea.extEq
  · rfl
  · rfl
  · rfl
  · rfl
  · apply List.ext_getElem
    · simp [MatrixArea.transpose, hlen, Nat.mul_comm]
    · intro i h1 h2
      have hiN : i < g.cols * g.rows := by
        have hL : (g.transpose.transpose).arr.length = g.cols * g.rows := by
          simp [MatrixArea.transpose]
        omega
      rw [← getD_in_range _ _ h1]
      have et : (g.transpose.transpose).arr.getD i false =
          (g.transpose).arr.getD (i / (g.transpose).rows
            + (i % (g.transpose).rows) * (g.transpose).cols) false :=
        transpose_entry g.transpose i hiN
      rw [et]
      show (g.transpose).arr.getD (i / g.rows + (i % g.rows) * g.cols) false = g.arr[i]
      have hdiv : i / g.rows < g.cols := by
        rw [Nat.div_lt_iff_lt_mul hn]
        omega
      have hkN : i / g.rows + (i % g.rows) * g.cols < g.cols * g.rows := by
        have hm : i % g.rows < g.rows := Nat.mod_lt _ hn
        calc i / g.rows + (i % g.rows) * g.cols
            < g.cols + (i % g.rows) * g.cols := by omega
        _ = (i % g.rows + 1) * g.cols := by ring
        _ ≤ g.rows * g.cols := Nat.mul_le_mul_right _ (by omega)
        _ = g.cols * g.rows := Nat.mul_comm _ _
      rw [transpose_entry g (i / g.rows + (i % g.rows) * g.cols) hkN]
      have e1 : (i / g.rows + (i % g.rows) * g.cols) / g.rows = i % g.rows := by
        rw [hsq] at hdiv ⊢
        rw [Nat.add_mul_div_right _ _ (by omega : 0 < g.cols), Nat.div_eq_of_lt hdiv]
        omega
      have e2 : (i / g.rows + (i % g.rows) * g.cols) % g.rows = i / g.rows := by
        rw [hsq] at hdiv ⊢
        rw [Nat.add_mul_mod_self_right, Nat.mod_eq_of_lt hdiv]
      rw [e1, e2]
      have e3 : i % g.rows + i / g.rows * g.cols = i := by
        rw [← hsq, Nat.mul_comm (i / g.rows) g.rows]
        exact Nat.mod_add_div i g.rows
      rw [e3, getD_in_range _ _ h2]

/-! ## Claim C5 -/

/-- C5: for every well-formed ShapeGrid, applying rotate90 four times
reproduces the grid exactly: same dimensions, same active cells, and the
same origin. -/
theorem rotate90_fourth_power_identity (g : MatrixArea) (h : g.wf) :
    g.rotate90.rotate90.rotate90.rotate90 = g := by
  obtain ⟨hlen, hx, hy⟩ := h
  have hC : 0 < g.cols := by omega
  have hR : 0 < g.rows := by omega
  apply MatrixArea.extEq
  · show g.cols - (g.cols - g.centerX - 1) - 1 = g.centerX
    omega
  · show g.rows - (g.rows - g.centerY - 1) - 1 = g.centerY
    omega
  · rfl
  · rfl
  · have hstep : g.rotate90.rotate90.rotate90.rotate90.arr
        = mkArr g.rows g.cols
          (fun r c => g.rotate90.rotate90.rotate90.cell (g.cols - c - 1) r) := rfl
    rw [hstep, ← arr_eq_mkArr_cell g hlen]
    apply mkArr_congr
    intro r hr c hc
    show g.rotate90.rotate90.rotate90.cell (g.cols - c - 1) r = g.cell r c
    rw [rotate90_cell (g.rotate90.rotate90) (g.cols - c - 1) r
      (show g.cols - c - 1 < g.cols by omega) (show r < g.rows from hr)]
    show (g.rotate90.rotate90).cell (g.rows - r - 1) (g.cols - c - 1) = g.cell r c
    rw [rotate90_cell (g.rotate90) (g.rows - r - 1) (g.cols - c - 1)
      (show g.rows - r - 1 < g.rows by omega) (show g.cols - c - 1 < g.cols by omega)]
    show (g.rotate90).cell (g.cols - (g.cols - c - 1) - 1) (g.rows - r - 1) = g.cell r c
    have e1 : g.cols - (g.cols - c - 1) - 1 = c := by omega
    rw [e1, rotate90_cell g c (g.rows - r - 1) (show c < g.cols from hc)
      (show g.rows - r - 1 < g.rows by omega)]
    have e2 : g.rows - (g.rows - r - 1) - 1 = r := by omega
    rw [e2]

/-- Witness for C5 at a concrete well-formed 1 x 2 grid. -/
theorem rotate90_fourth_power_identity_example :
    gRotEx.rotate90.rotate90.rotate90.rotate90 = gRotEx :=
  rotate90_fourth_power_identity gRotEx (by decide)

/-! ## Claim C6 -/

/-- C6 counterexample: on the well-formed non-square 2 x 3 grid gNonSquare,
transpose composed with itself does not reproduce the grid, so the claim
that mirror, flip and transpose are involutions on every ShapeGrid (with the
stated origin recomputation) is false as stated. -/
theorem transpose_not_involutive_on_nonsquare :
    gNonSquare.wf ∧ gNonSquare.transpose.transpose ≠ gNonSquare := by
  constructor
  · decide
  · decide

/-- C6 (amended): flip is an involution on every well-formed grid; mirror and
transpose are involutions on square grids; and the recomputed origins are:
mirror sends origin y to rows-1-y (keeping x), flip sends origin x to
cols-1-x (keeping y), and transpose swaps the origin components. -/
theorem reflection_involutions (g : MatrixArea) (h : g.wf) :
    g.flip.flip = g ∧
    ((g.mirror).centerX = g.centerX ∧ (g.mirror).centerY = g.rows - g.centerY - 1) ∧
    ((g.flip).centerX = g.cols - g.centerX - 1 ∧ (g.flip).centerY = g.centerY) ∧
    ((g.transpose).centerX = g.centerY ∧ (g.transpose).centerY = g.centerX) ∧
    (g.rows = g.cols → g.mirror.mirror = g ∧ g.transpose.transpose = g) :=
  ⟨flip_flip g h, ⟨rfl, rfl⟩, ⟨rfl, rfl⟩, ⟨rfl, rfl⟩,
    fun hsq => ⟨mirror_mirror_square g h hsq, transpose_transpose_square g h hsq⟩⟩

/-- Witness for C6 (amended) at a concrete well-formed square grid. -/
theorem reflection_involutions_example :
    gSquareEx.flip.flip = gSquareEx ∧ gSquareEx.mirror.mirror = gSquareEx ∧
      gSquareEx.transpose.transpose = gSquareEx := by
  have h := reflection_involutions gSquareEx (by decide)
  exact ⟨h.1, (h.2.2.2.2 rfl).1, (h.2.2.2.2 rfl).2⟩

/-! ## Claim C4 -/

/-- C4 counterexample: on an AreaCombat whose areas were never configured,
getArea silently returns the default-constructed empty grid and the
projection loop over it yields no positions, i.e. resolution proceeds with an
empty footprint instead of failing; this refutes the claim that an unbuilt
direction must not be silently substituted by an empty area. -/
theorem getArea_proceeds_with_empty_default :
    AreaCombat.getArea acUnconfigured ⟨0, 0, 7⟩ ⟨1, 0, 7⟩ = MatrixArea.empty ∧
    projectedPositions (AreaCombat.getArea acUnconfigured ⟨0, 0, 7⟩ ⟨1, 0, 7⟩)
      ⟨1, 0, 7⟩ (fun _ => true) = [] := by
  constructor
  · decide
  · decide

/-- C4 (amended): when direction selection lands on a direction slot outside
the configured areas vector, getArea returns the static default-constructed
empty MatrixArea and resolution proceeds with an empty footprint (the
projection yields no positions for any sight predicate). -/
theorem getArea_unbuilt_direction_empty (ac : AreaCombat) (cp tp : PositionM)
    (h : ac.areas.length ≤ (areaCombatDir ac.hasExtArea (tp.x - cp.x) (tp.y - cp.y)).toNat) :
    ac.getArea cp tp = MatrixArea.empty ∧
      ∀ sight : PositionM → Bool, projectedPositions (ac.getArea cp tp) tp sight = [] := by
  have he : ac.getArea cp tp = MatrixArea.empty := by
    unfold AreaCombat.getArea
    rw [if_pos h]
  refine ⟨he, fun sight => ?_⟩
  rw [he]
  rfl

/-- Witness for C4 (amended) at a concrete unconfigured AreaCombat. -/
theorem getArea_unbuilt_direction_empty_example :
    acUnconfigured.getArea ⟨5, 5, 7⟩ ⟨5, 9, 7⟩ = MatrixArea.empty ∧
      projectedPositions (acUnconfigured.getArea ⟨5, 5, 7⟩ ⟨5, 9, 7⟩) ⟨5, 9, 7⟩
        (fun _ => false) = [] := by
  have h := getArea_unbuilt_direction_empty acUnconfigured ⟨5, 5, 7⟩ ⟨5, 9, 7⟩ (by decide)
  exact ⟨h.1, h.2 (fun _ => false)⟩

/-! ## Claim C7 -/

/-- C7: with only cardinal directions, selection picks west if dx < 0, east
if dx > 0, otherwise north if dy < 0 else south; with diagonals enabled and
both offsets nonzero, the sign combination picks the diagonal instead. -/
theorem direction_selection_characterization (dx dy : ℤ) :
    (areaCombatDir false dx dy =
      if dx < 0 then Direction.west
      else if dx > 0 then Direction.east
      else if dy < 0 then Direction.north
      else Direction.south) ∧
    (dx ≠ 0 → dy ≠ 0 → areaCombatDir true dx dy =
      if dx < 0 then (if dy < 0 then Direction.northwest else Direction.southwest)
      else (if dy < 0 then Direction.northeast else Direction.southeast)) := by
  constructor
  · rfl
  · intro hdx hdy
    rcases lt_trichotomy dx 0 with h1 | h1 | h1
    · rcases lt_trichotomy dy 0 with h2 | h2 | h2
      · simp [areaCombatDir, h1, h2]
      · exact absurd h2 hdy
      · simp [areaCombatDir, h1, h2, show ¬dy < 0 by omega]
    · exact absurd h1 hdx
    · rcases lt_trichotomy dy 0 with h2 | h2 | h2
      · simp [areaCombatDir, h2, show ¬dx < 0 by omega, show dx > 0 by omega]
      · exact absurd h2 hdy
      · simp [areaCombatDir, show ¬dx < 0 by omega, show dx > 0 by omega,
          show ¬dy < 0 by omega, show dy > 0 by omega]

/-- Witness for C7: target northwest of the caster with diagonals enabled. -/
theorem direction_selection_characterization_example :
    areaCombatDir true (-1) (-1) = Direction.northwest := by
  have h := (direction_selection_characterization (-1) (-1)).2 (by decide) (by decide)
  rw [h]
  decide

/-! ## Claim C8 -/

/-- C8: isProtected is true exactly when either level is below the configured
protection level, either vocation disallows PvP, or the attacker has a black
skull while showing no marker toward the target; two players at or above the
threshold with PvP vocations and no reputation marker are not protected. -/
theorem isProtected_characterization (P : ℕ) (a t : ProtPlayer) (sc : SkullType) :
    (isProtected P a t sc = true ↔
      t.level < P ∨ a.level < P ∨ a.vocAllowsPvp = false ∨ t.vocAllowsPvp = false ∨
        (a.skull = SkullType.black ∧ sc = SkullType.skullNone)) ∧
    (P ≤ a.level → P ≤ t.level → a.vocAllowsPvp = true → t.vocAllowsPvp = true →
      a.skull = SkullType.skullNone → isProtected P a t sc = false) := by
  constructor
  · unfold isProtected
    split_ifs with h1 h2 h3
    · simp only [true_iff]
      tauto
    · simp only [true_iff]
      tauto
    · simp only [true_iff]
      tauto
    · simp only [Bool.false_eq_true, false_iff]
      tauto
  · intro h1 h2 h3 h4 h5
    unfold isProtected
    rw [if_neg (by omega), if_neg (by simp [h3, h4]), if_neg (by simp [h5])]

/-- Witness for C8: two level-100 players, PvP vocations, no skull, with a
protection level of 50 are not protected from each other. -/
theorem isProtected_characterization_example :
    isProtected 50 ⟨100, true, SkullType.skullNone⟩ ⟨100, true, SkullType.skullNone⟩
      SkullType.skullNone = false := by
  have h := (isProtected_characterization 50 ⟨100, true, SkullType.skullNone⟩
    ⟨100, true, SkullType.skullNone⟩ SkullType.skullNone).2
  exact h (by decide) (by decide) (by decide) (by decide) (by decide)

/-! ## Claim C10 -/

/-- C10: in the no-combat-type branch, when the eligibility test passes, a
melee origin skips the condition-application loop entirely while the dispel
step, the tile effects, the target callback (when configured) and the
distance visual (when a caster and an effect exist) still run; with any other
origin the conditions are applied subject to target immunity. -/
theorem melee_origin_skips_conditions (p : NoTypeParams) (hasCaster : Bool)
    (t : NoTypeTarget) (canCombat : Bool)
    (helig : p.aggressive = false ∨ (¬t.isCaster ∧ canCombat)) :
    (p.origin = OriginType.melee →
      doCombatNoDamage p hasCaster t canCombat =
        { acted := true, conditionsApplied := [], dispelRan := true
          tileEffectsRan := true, targetCallbackRan := p.hasTargetCallback
          distanceEffectRan := hasCaster && p.distanceEffectSet }) ∧
    (p.origin ≠ OriginType.melee →
      doCombatNoDamage p hasCaster t canCombat =
        { acted := true
          conditionsApplied := p.conditionTypes.filter (fun c => t.isCaster || !t.immuneTo c)
          dispelRan := true, tileEffectsRan := true
          targetCallbackRan := p.hasTargetCallback
          distanceEffectRan := hasCaster && p.distanceEffectSet }) := by
  unfold doCombatNoDamage
  rw [if_pos helig]
  constructor
  · intro hm
    simp [hm]
  · intro hm
    simp [hm]

/-- Witness for C10: a melee-origin non-aggressive no-type action with two
configured conditions applies none of them but still runs dispel, tile
effects, callback and the distance visual. -/
theorem melee_origin_skips_conditions_example :
    doCombatNoDamage
      { aggressive := false, origin := OriginType.melee, conditionTypes := [1, 2]
        hasTargetCallback := true, distanceEffectSet := true }
      true { isCaster := false, immuneTo := fun _ => false } true =
      { acted := true, conditionsApplied := [], dispelRan := true
        tileEffectsRan := true, targetCallbackRan := true, distanceEffectRan := true } := by
  have h := (melee_origin_skips_conditions
    { aggressive := false, origin := OriginType.melee, conditionTypes := [1, 2]
      hasTargetCallback := true, distanceEffectSet := true }
    true { isCaster := false, immuneTo := fun _ => false } true
    (Or.inl rfl)).1 rfl
  rw [h]
  decide

/-! ## Helper lemmas for the damage pipelines -/

theorem roundFrac_zero (den : ℤ) (h : 0 < den) : roundFrac 0 den = 0 := by
  unfold roundFrac
  rw [if_pos le_rfl]
  simp
  exact Int.ediv_eq_zero_of_lt (by omega) (by omega)

theorem scaleValue_formula (ps : PlayerStats) (ty : CombatType) (v denom : ℤ)
    (hd : 0 < denom) :
    scaleValue ps ty v denom =
      v + roundFrac (v * ((if ty = CombatType.physical then ps.strength
        else ps.intelligence : ℕ) : ℤ)) denom := by
  unfold scaleValue
  by_cases hty : ty = CombatType.physical
  · rw [if_pos hty, if_pos hty]
    by_cases hs : ps.strength ≠ 0
    · rw [if_pos hs]
    · rw [if_neg hs]
      push_neg at hs
      rw [hs]
      simp [roundFrac_zero _ hd]
  · rw [if_neg hty, if_neg hty]
    by_cases hs : ps.intelligence ≠ 0
    · rw [if_pos hs]
    · rw [if_neg hs]
      push_neg at hs
      rw [hs]
      simp [roundFrac_zero _ hd]

theorem doTargetCombat_blockInput (ctx : CasterCtx) (ps : PlayerStats)
    (t : SingleTarget) (damage : CombatDamage) (hp : ctx.player = some ps)
    (hmd : damage.primaryType ≠ CombatType.manadrain) :
    (doTargetCombat ctx t damage).blockInput =
      some (scaleValue ps damage.primaryType damage.primaryValue 100,
            scaleValue ps damage.secondaryType damage.secondaryValue 100) := by
  simp only [doTargetCombat, hp, hmd, if_false]
  cases hb : t.block (scaleValue ps damage.primaryType damage.primaryValue 100)
      (scaleValue ps damage.secondaryType damage.secondaryValue 100) with
  | vetoed => simp [hb]
  | passed p1 s1 => simp [hb]

theorem areaLeech_traces (ctx : CasterCtx) (damage : CombatDamage) (st : AreaState) :
    (areaLeech ctx damage st).traces = st.traces := by
  unfold areaLeech
  split
  · rfl
  · split
    · rfl
    · rfl

theorem areaTargetStep_traces (ctx : CasterCtx) (damage : CombatDamage)
    (critP critS : ℤ) (critical : Bool) (st : AreaState) (t : AreaTarget) :
    (areaTargetStep ctx damage critP critS critical st t).traces =
      st.traces ++ [areaPreBlock ctx damage critP critS critical t] := by
  simp only [areaTargetStep]
  by_cases hd : damage.primaryType = CombatType.manadrain
  · rw [if_pos hd, areaLeech_traces]
    split
    · rfl
    · rfl
  · rw [if_neg hd]
    cases hh : t.hit (areaPreBlock ctx damage critP critS critical t).preBlockP
        (areaPreBlock ctx damage critP critS critical t).preBlockS with
    | blocked => rfl
    | landed succ fp fs =>
      rw [areaLeech_traces]
      split
      · rfl
      · rfl

theorem foldl_areaTargetStep_traces (ctx : CasterCtx) (damage : CombatDamage)
    (critP critS : ℤ) (critical : Bool) (targets : List AreaTarget) (st : AreaState) :
    (targets.foldl (areaTargetStep ctx damage critP critS critical) st).traces =
      st.traces ++ targets.map (areaPreBlock ctx damage critP critS critical) := by
  induction targets generalizing st with
  | nil => simp
  | cons t ts ih =>
    rw [List.foldl_cons, ih, areaTargetStep_traces]
    simp

theorem doAreaCombat_traces (ctx : CasterCtx) (damage : CombatDamage)
    (targets : List AreaTarget) :
    (doAreaCombat ctx damage targets).traces =
      targets.map (areaPreBlock ctx damage (areaCriticalRoll ctx damage).1
        (areaCriticalRoll ctx damage).2.1 (areaCriticalRoll ctx damage).2.2) := by
  simp only [doAreaCombat]
  rw [foldl_areaTargetStep_traces]
  simp

theorem areaPreBlock_scaled (ctx : CasterCtx) (ps : PlayerStats)
    (damage : CombatDamage) (critP critS : ℤ) (critical : Bool) (t : AreaTarget)
    (hp : ctx.player = some ps) :
    (areaPreBlock ctx damage critP critS critical t).scaledP =
        scaleValue ps damage.primaryType damage.primaryValue 230 ∧
      (areaPreBlock ctx damage critP critS critical t).scaledS =
        scaleValue ps damage.secondaryType damage.secondaryValue 230 := by
  simp [areaPreBlock, hp]

/-! ## Claim C3 -/

/-- C3: with a player caster, each damage component is scaled before
mitigation: a physical component by the strength stat, any other type by the
intelligence stat, as value + round(value * stat / 100) in the single-target
path (the value handed to combatBlockHit) and value + round(value * stat /
230) in the per-target preparation of the area path. -/
theorem casterStat_scaling_before_mitigation (ctx : CasterCtx) (ps : PlayerStats)
    (t : SingleTarget) (damage : CombatDamage) (targets : List AreaTarget)
    (hp : ctx.player = some ps) (hmd : damage.primaryType ≠ CombatType.manadrain) :
    (doTargetCombat ctx t damage).blockInput =
      some (damage.primaryValue + roundFrac (damage.primaryValue *
              ((if damage.primaryType = CombatType.physical then ps.strength
                else ps.intelligence : ℕ) : ℤ)) 100,
            damage.secondaryValue + roundFrac (damage.secondaryValue *
              ((if damage.secondaryType = CombatType.physical then ps.strength
                else ps.intelligence : ℕ) : ℤ)) 100) ∧
    ∀ tr ∈ (doAreaCombat ctx damage targets).traces,
      tr.scaledP = damage.primaryValue + roundFrac (damage.primaryValue *
          ((if damage.primaryType = CombatType.physical then ps.strength
            else ps.intelligence : ℕ) : ℤ)) 230 ∧
      tr.scaledS = damage.secondaryValue + roundFrac (damage.secondaryValue *
          ((if damage.secondaryType = CombatType.physical then ps.strength
            else ps.intelligence : ℕ) : ℤ)) 230 := by
  constructor
  · rw [doTargetCombat_blockInput ctx ps t damage hp hmd,
      scaleValue_formula ps damage.primaryType damage.primaryValue 100 (by omega),
      scaleValue_formula ps damage.secondaryType damage.secondaryValue 100 (by omega)]
  · intro tr htr
    rw [doAreaCombat_traces] at htr
    obtain ⟨u, hu, rfl⟩ := List.mem_map.mp htr
    obtain ⟨e1, e2⟩ := areaPreBlock_scaled ctx ps damage _ _ _ u hp
    rw [e1, e2,
      scaleValue_formula ps damage.primaryType damage.primaryValue 230 (by omega),
      scaleValue_formula ps damage.secondaryType damage.secondaryValue 230 (by omega)]
    exact ⟨rfl, rfl⟩

/-- Witness for C3: strength 30 scales a physical 100 hit to 130 before the
block step in the single-target path and to 113 in the area path. -/
theorem casterStat_scaling_before_mitigation_example :
    (doTargetCombat ctxScale tgtScale dmgScale).blockInput = some (130, 0) ∧
    ∀ tr ∈ (doAreaCombat ctxScale dmgScale [atScale]).traces, tr.scaledP = 113 := by
  have h := casterStat_scaling_before_mitigation ctxScale psScale tgtScale dmgScale
    [atScale] rfl (by decide)
  constructor
  · rw [h.1]
    decide
  · intro tr htr
    have h2 := (h.2 tr htr).1
    rw [h2]
    decide

/-! ## Claim C2 -/

/-- C2: in the single-target path with a player caster, non-healing,
non-condition-origin, not-yet-critical damage, a roll in 1..100 at most the
critical-chance stat together with a positive critical-skill stat marks the
damage critical and adds round(value * critSkill / 100) to each component
(on top of the post-block, post-halving values). -/
theorem doTargetCombat_critical_hit (ctx : CasterCtx) (ps : PlayerStats)
    (t : SingleTarget) (damage : CombatDamage) (p1 s1 : ℤ)
    (hp : ctx.player = some ps)
    (hmd : damage.primaryType ≠ CombatType.manadrain)
    (hheal : damage.primaryType ≠ CombatType.healing)
    (horig : damage.origin ≠ OriginType.condition)
    (hcrit : damage.critical = false)
    (hblock : t.block (scaleValue ps damage.primaryType damage.primaryValue 100)
        (scaleValue ps damage.secondaryType damage.secondaryValue 100)
        = BlockResult.passed p1 s1)
    (hskill : 0 < ps.critSkill)
    (hroll1 : 1 ≤ ctx.critRoll)
    (hroll2 : ctx.critRoll ≤ ps.critChance) :
    (doTargetCombat ctx t damage).critical = true ∧
    (doTargetCombat ctx t damage).postCritP =
      (if t.isPlayer ∧ ¬t.isCaster ∧ ¬t.skullBlack
          ∧ damage.primaryType ≠ CombatType.healing then cppHalf p1 else p1) +
        roundFrac ((if t.isPlayer ∧ ¬t.isCaster ∧ ¬t.skullBlack
          ∧ damage.primaryType ≠ CombatType.healing then cppHalf p1 else p1)
          * (ps.critSkill : ℤ)) 100 ∧
    (doTargetCombat ctx t damage).postCritS =
      (if t.isPlayer ∧ ¬t.isCaster ∧ ¬t.skullBlack
          ∧ damage.primaryType ≠ CombatType.healing then cppHalf s1 else s1) +
        roundFrac ((if t.isPlayer ∧ ¬t.isCaster ∧ ¬t.skullBlack
          ∧ damage.primaryType ≠ CombatType.healing then cppHalf s1 else s1)
          * (ps.critSkill : ℤ)) 100 := by
  have hchance : 0 < ps.critChance := by omega
  have hcritNow : ¬damage.critical = true ∧ damage.primaryType ≠ CombatType.healing
      ∧ damage.origin ≠ OriginType.condition ∧ 0 < ps.critChance ∧ 0 < ps.critSkill
      ∧ ctx.critRoll ≤ ps.critChance :=
    ⟨by rw [hcrit]; simp, hheal, horig, hchance, hskill, hroll2⟩
  simp only [doTargetCombat, hp, hmd, if_false]
  rw [hblock]
  simp only [if_pos hcritNow]
  refine ⟨?_, ?_, ?_⟩ <;> trivial

/-- Witness for C2: chance 100, amount 50, primary 100 pre-critical gives a
post-critical magnitude of 150 with the critical flag set. -/
theorem doTargetCombat_critical_hit_example :
    (doTargetCombat ctxCrit tgtCrit dmgCrit).critical = true ∧
    (doTargetCombat ctxCrit tgtCrit dmgCrit).postCritP = 150 := by
  have h := doTargetCombat_critical_hit ctxCrit psCrit tgtCrit dmgCrit 100 0 rfl
    (by decide) (by decide) (by decide) rfl rfl (by decide) (by decide) (by decide)
  refine ⟨h.1, ?_⟩
  rw [h.2.1]
  decide

/-! ## Claim C9 -/

/-- C9: in an area resolution with a player caster the critical decision is
taken once, from the single pre-loop roll, before any target is processed;
the bonus values round(base * critSkill / 100) are computed from the
unscaled base components and the same bonuses are added to every processed
damage of every processed target (halved exactly where the player-vs-player
reduction applied), rather than a fresh roll being made per target. -/
theorem area_critical_rolled_once (ctx : CasterCtx) (ps : PlayerStats)
    (damage : CombatDamage) (targets : List AreaTarget)
    (hp : ctx.player = some ps) :
    (doAreaCombat ctx damage targets).traces = targets.map (fun t =>
      let critHit := ¬damage.critical = true
          ∧ damage.primaryType ≠ CombatType.healing
          ∧ damage.origin ≠ OriginType.condition
          ∧ 0 < ps.critChance ∧ 0 < ps.critSkill ∧ ctx.critRoll ≤ ps.critChance
      let bonusP := if critHit then
          roundFrac (damage.primaryValue * (ps.critSkill : ℤ)) 100 else 0
      let bonusS := if critHit then
          roundFrac (damage.secondaryValue * (ps.critSkill : ℤ)) 100 else 0
      let criticalNow := if critHit then true else damage.critical
      let p0 := scaleValue ps damage.primaryType damage.primaryValue 230
      let s0 := scaleValue ps damage.secondaryType damage.secondaryValue 230
      let reduced := (p0 < 0 ∨ s0 < 0) ∧ ctx.hasCaster = true ∧ ctx.player.isSome = true
          ∧ t.isPlayer = true ∧ ¬t.isCaster = true ∧ ¬t.skullBlack = true
      let p1 := if reduced then cppHalf p0 else p0
      let s1 := if reduced then cppHalf s0 else s0
      { scaledP := p0, scaledS := s0, reduced := decide reduced
        preBlockP := if criticalNow then p1 + (if reduced then cppHalf bonusP else bonusP)
          else p1
        preBlockS := if criticalNow then s1 + (if reduced then cppHalf bonusS else bonusS)
          else s1 }) := by
  rw [doAreaCombat_traces]
  apply List.map_congr_left
  intro t _
  by_cases hc : ¬damage.critical = true ∧ damage.primaryType ≠ CombatType.healing
      ∧ damage.origin ≠ OriginType.condition
      ∧ 0 < ps.critChance ∧ 0 < ps.critSkill ∧ ctx.critRoll ≤ ps.critChance
  · simp only [areaPreBlock, areaCriticalRoll, hp, if_pos hc]
  · simp only [areaPreBlock, areaCriticalRoll, hp, if_neg hc]

/-- Witness for C9: a single area target receiving the shared critical bonus
computed from the unscaled base damage. -/
theorem area_critical_rolled_once_example :
    (doAreaCombat ctxAreaCrit dmgAreaCrit [tgtAreaCrit]).traces =
      [{ scaledP := -100, scaledS := 0, reduced := false
         preBlockP := -150, preBlockS := 0 }] := by
  have h := area_critical_rolled_once ctxAreaCrit psCrit dmgAreaCrit [tgtAreaCrit] rfl
  rw [h]
  decide

/-! ## Claim C1 -/

/-- C1: evaluation of the area pipeline at a concrete failing input.  With a
player caster (life-leech chance 100, skill 10, rolls passing) and two
successful hits of absolute size 100 then 2000, the leech block, because it
sits inside the per-creature loop, fires during the first successful
iteration with the running counters (maxDamageFound 100, totalTargets 1) and
heals 10, even though the full-loop counters end at (2000, 2) and the claimed
after-the-loop formula gives calcLeechValue 2000 2 10 10 = 220.  The
arithmetic example of the claim, calcLeechValue 2000 10 10 10 = 380, does
hold of the formula, but the pipeline never evaluates it with those
counters. -/
theorem area_leech_fires_before_loop_end :
    (doAreaCombat ctxLeech dmgLeech [tgtLeechSmall, tgtLeechBig]).leechEvents
        = [(true, 10)] ∧
    (doAreaCombat ctxLeech dmgLeech [tgtLeechSmall, tgtLeechBig]).maxDamageFound
        = 2000 ∧
    (doAreaCombat ctxLeech dmgLeech [tgtLeechSmall, tgtLeechBig]).totalTargets = 2 ∧
    calcLeechValue 2000 2 10 10 = 220 ∧
    calcLeechValue 2000 10 10 10 = 380 := by
  refine ⟨?_, ?_, ?_, ?_, ?_⟩ <;> decide
